import Mathlib

/-!
# Verification of the slimgem resilient upload orchestrator

Shallow embedding of the upload core of the repository:

* `src/utils/helpers.py` — retry engine (`upload_with_retry`), operation
  polling (`wait_for_operation`), status tracking
  (`init_upload_status` / `update_upload_status` / summary stats),
  in-flight guard (`_active_uploads`), duplicate detection
  (`detect_duplicate_files`, `get_deduplicated_files`);
* `src/upload_to_FileStore.py` — per-file wrapper
  (`upload_file_to_store`) and the batch scheduler
  (`upload_multiple_files`);
* `src/config.py` — `RETRYABLE_ERROR_PATTERNS` and the retry defaults.

External collaborators (the remote client, the thread pool, the clock,
the random source, user prompts) are modelled as explicit oracles:
per-attempt outcomes, jitter draws, polling scripts, completion order
and interactive selections are parameters of the embedded functions.
Floating-point delays are modelled over `ℚ`.
-/

namespace Slimgem

/-- The `UploadStatus` enum of `utils/helpers.py`. -/
inductive UploadStatus : Type
  | pending
  | uploading
  | retrying
  | completed
  | failed
deriving DecidableEq, Repr

/-- One call to `update_upload_status`: the four fields it writes. -/
structure StatusUpdate where
  state : UploadStatus
  attempt : Nat
  maxRetries : Nat
  message : String
deriving DecidableEq, Repr

/-- Observable events of one `upload_with_retry` run: status-tracker
updates, calls to the external upload collaborator, and backoff sleeps. -/
inductive UEvent : Type
  | upd (u : StatusUpdate)
  | call
  | sleep (d : ℚ)
deriving DecidableEq, Repr

/-- Outcome of one upload attempt, as seen by the retry loop of
`upload_with_retry`: either `wait_for_operation` returned
`(True, msg)` (`ok`), or it returned `(False, msg)` (`waitFail`), or an
exception with message `msg` was raised and caught (`exn`). -/
inductive AttemptOutcome : Type
  | ok (msg : String)
  | waitFail (msg : String)
  | exn (msg : String)
deriving DecidableEq, Repr

/-- Python's `str.lower()`, on the character list of the string
(kernel-computable, unlike `String.toLower`). -/
def lowerStr (s : String) : String :=
  ⟨s.data.map Char.toLower⟩

/-- Python's slice `s[:n]`, on the character list of the string
(kernel-computable, unlike `String.take`). -/
def takeStr (s : String) (n : Nat) : String :=
  ⟨s.data.take n⟩

/-- Python's substring test `pat in s`, on the character lists of the
strings. -/
def containsSub (s pat : String) : Bool :=
  go s.data pat.data
where
  go : List Char → List Char → Bool
    | l, pat =>
      pat.isPrefixOf l ||
        match l with
        | [] => false
        | _ :: t => go t pat

/-- `RETRYABLE_ERROR_PATTERNS` from `src/config.py`. -/
def RETRYABLE_ERROR_PATTERNS : List String :=
  [ "already been terminated"
  , "503"
  , "service unavailable"
  , "timeout"
  , "deadline exceeded"
  , "internal error"
  , "temporarily unavailable"
  ]

/-- The pre-jitter backoff delay computed at the top of the retry sleep
block of `upload_with_retry`:
`delay = min(initial_delay * (2 ** (attempt - 1)), max_delay)`. -/
def backoffDelay (initialDelay maxDelay : ℚ) (attempt : Nat) : ℚ :=
  min (initialDelay * 2 ^ (attempt - 1)) maxDelay

/-- The slept delay of `upload_with_retry`:
`jitter = delay * 0.25 * (2 * random.random() - 1)` followed by
`actual_delay = max(0.1, delay + jitter)`, where `draw` stands for the
`random.random()` sample. -/
def actualBackoffDelay (initialDelay maxDelay : ℚ) (attempt : Nat) (draw : ℚ) : ℚ :=
  let delay := backoffDelay initialDelay maxDelay attempt
  let jitter := delay * (1/4) * (2 * draw - 1)
  max (1/10) (delay + jitter)

/-- The error preview used for the `RETRYING` update before the sleep:
`str(last_error)[:80] if last_error else "Unknown error"`. -/
def errorPreview (lastError : String) : String :=
  if lastError = "" then "Unknown error" else takeStr lastError 80

/-- A status-tracker update, emitted only when `use_status_tracker`. -/
def trackEvent (tracker : Bool) (u : StatusUpdate) : List UEvent :=
  if tracker then [.upd u] else []

/-- The status update at the top of the retry loop body: `UPLOADING` on
the first attempt, `RETRYING` (with the retry message) afterwards. -/
def preEvents (tracker : Bool) (attempt maxRetries : Nat)
    (lastError : String) : List UEvent :=
  if attempt = 0 then
    trackEvent tracker ⟨.uploading, attempt, maxRetries, ""⟩
  else
    trackEvent tracker ⟨.retrying, attempt, maxRetries,
      "Retrying after error: " ++ takeStr lastError 50 ++ "..."⟩

/-- The backoff block after a transient failure, with `a` the already
incremented attempt counter: when `a ≤ max_retries`, a `RETRYING`
update followed by the jittered sleep; nothing otherwise. -/
def backoffEvents (tracker : Bool) (a maxRetries : Nat)
    (initialDelay maxDelay draw : ℚ) (newErr : String) : List UEvent :=
  if a ≤ maxRetries then
    trackEvent tracker ⟨.retrying, a, maxRetries, errorPreview newErr⟩ ++
      [.sleep (actualBackoffDelay initialDelay maxDelay a draw)]
  else []

/-- The retry loop of `upload_with_retry` (`helpers.py`, lines 537-656),
entered after the in-flight guard was acquired.  `outcomes a` is the
collaborator's behaviour on the attempt with 0-based index `a` (the
source's `attempt` loop variable), `draws a` the `random.random()`
sample used for the sleep before the attempt with index `a`.

The source's `while attempt <= max_retries` loop is embedded by
structural recursion on `budget`, the number of remaining loop
iterations: the caller instantiates `budget := maxRetries + 1 - attempt`
(so `budget = 0` is exactly the loop exit `attempt > max_retries`), and
each iteration passes `budget - 1` alongside `attempt + 1`.
Returns `(success, message, events)`. -/
def retryLoop (patterns : List String) (outcomes : Nat → AttemptOutcome)
    (draws : Nat → ℚ) (maxRetries : Nat) (initialDelay maxDelay : ℚ)
    (tracker : Bool) : Nat → Nat → String → Bool × String × List UEvent
  | 0, _attempt, lastError =>
    -- loop condition false: max retries exhausted
    let finalMessage :=
      "Upload failed after " ++ toString (maxRetries + 1) ++
        " attempts. Last error: " ++ lastError
    (false, finalMessage,
      trackEvent tracker ⟨.failed, maxRetries + 1, maxRetries, finalMessage⟩)
  | budget + 1, attempt, lastError =>
    -- status update at the top of the loop body
    let pre := preEvents tracker attempt maxRetries lastError
    -- fresh upload session + wait_for_operation, with the try/except
    -- around them; `transient msg` continues to the backoff code
    let transient : String → Bool × String × List UEvent := fun newErr =>
      let a := attempt + 1
      let rest := retryLoop patterns outcomes draws maxRetries
        initialDelay maxDelay tracker budget a newErr
      (rest.1, rest.2.1,
        pre ++ [.call] ++
          backoffEvents tracker a maxRetries initialDelay maxDelay
            (draws a) newErr ++ rest.2.2)
    match outcomes attempt with
    | .ok msg =>
      (true, msg,
        pre ++ [.call] ++
          trackEvent tracker ⟨.completed, 0, 0, "Upload successful"⟩)
    | .waitFail msg =>
      if containsSub (lowerStr msg) "already been terminated" then
        transient msg
      else
        (false, msg,
          pre ++ [.call] ++ trackEvent tracker ⟨.failed, 0, 0, msg⟩)
    | .exn msg =>
      if patterns.any fun err => containsSub (lowerStr msg) err then
        transient msg
      else
        (false, "Upload failed: " ++ msg,
          pre ++ [.call] ++
            trackEvent tracker ⟨.failed, attempt + 1, maxRetries,
              "Upload failed: " ++ takeStr msg 80⟩)

/-- Result of one `upload_with_retry` run: the returned pair, the event
trace, and the state of the in-flight guard set after the run. -/
structure RunResult where
  success : Bool
  message : String
  events : List UEvent
  activeAfter : List String
deriving DecidableEq, Repr

/-- `upload_with_retry` (`helpers.py`, lines 486-661).  `active` is the
`_active_uploads` set at entry. -/
def upload_with_retry (patterns : List String)
    (outcomes : Nat → AttemptOutcome) (draws : Nat → ℚ)
    (filePath storeName : String) (maxRetries : Nat)
    (initialDelay maxDelay : ℚ) (tracker : Bool)
    (active : List String) : RunResult :=
  let uploadKey := storeName ++ ":" ++ filePath
  if uploadKey ∈ active then
    { success := false
      message := "Upload already in progress for this file to this store"
      events :=
        trackEvent tracker ⟨.failed, 0, 0,
          "Upload already in progress for this file to this store"⟩
      activeAfter := active }
  else
    let r := retryLoop patterns outcomes draws maxRetries
      initialDelay maxDelay tracker (maxRetries + 1) 0 ""
    { success := r.1
      message := r.2.1
      events := r.2.2
      -- `finally`: `_active_uploads.discard(upload_key)` after the add
      activeAfter := (uploadKey :: active).erase uploadKey }

/-- Number of collaborator upload calls in an event trace. -/
def countCalls (evs : List UEvent) : Nat :=
  (evs.filter fun e => e = .call).length

/-- Number of backoff sleeps in an event trace. -/
def countSleeps (evs : List UEvent) : Nat :=
  (evs.filter fun e => match e with | .sleep _ => true | _ => false).length

/-- The status states written by a trace, in order. -/
def statesOf (evs : List UEvent) : List UploadStatus :=
  evs.filterMap fun e => match e with | .upd u => some u.state | _ => none

/-- Every status update in the trace has `attempt ≤ bound`. -/
def attemptsBounded (bound : Nat) (evs : List UEvent) : Bool :=
  evs.all fun e => match e with
    | .upd u => u.attempt ≤ bound
    | _ => true

/-! ## Operation polling (`wait_for_operation`, `helpers.py` lines 395-435) -/

/-- The operation handle polled by `wait_for_operation`: the fields the
source reads (`operation.done`, `operation.error`). -/
structure Operation where
  done : Bool
  error : Option String
deriving DecidableEq, Repr

/-- `wait_for_operation`.  Each loop iteration observes an elapsed time
and then the result of `client.operations.get` (a fresh operation or a
raised exception); `script` lists those observations.  Returns `none`
when the script is exhausted while the loop would keep polling. -/
def wait_for_operation (timeoutSeconds : ℚ) :
    Operation → List (ℚ × Except String Operation) → Option (Bool × String)
  | op, script =>
    if op.done then
      some (match op.error with
        | some e =>
          -- `if hasattr(operation, "error") and operation.error:`
          if e = "" then (true, "Operation completed successfully")
          else (false, "Operation failed: " ++ e)
        | none => (true, "Operation completed successfully"))
    else
      match script with
      | [] => none
      | (elapsed, g) :: rest =>
        if elapsed > timeoutSeconds then
          some (false,
            "Operation timed out after " ++ toString timeoutSeconds ++
              " seconds. The file may still be processing. Check back later.")
        else
          match g with
          | .error e => some (false, "Error checking operation status: " ++ e)
          | .ok op2 => wait_for_operation timeoutSeconds op2 rest

/-! ## Status tracking (`helpers.py` lines 57-191) -/

/-- One entry of `_upload_statuses`. -/
structure StatusRecord where
  status : UploadStatus
  attempt : Nat
  maxRetries : Nat
  message : String
deriving DecidableEq, Repr

/-- The record written by `init_upload_status`. -/
def init_upload_status : StatusRecord :=
  { status := .pending, attempt := 0, maxRetries := 0, message := "" }

/-- `update_upload_status` on a single record: all four fields are
overwritten (absent keyword arguments use the defaults
`attempt = 0`, `max_retries = 0`, `message = ""`). -/
def update_upload_status (_r : StatusRecord) (u : StatusUpdate) : StatusRecord :=
  { status := u.state, attempt := u.attempt, maxRetries := u.maxRetries
    message := u.message }

/-- Replay the status updates of an event trace onto a record. -/
def applyEvents (r : StatusRecord) (evs : List UEvent) : StatusRecord :=
  evs.foldl (fun acc e => match e with
    | .upd u => update_upload_status acc u
    | _ => acc) r

/-- `update_upload_status` on the `_upload_statuses` map: a record is
only written when `file_path` is already a key. -/
def update_upload_status_map (m : List (String × StatusRecord))
    (filePath : String) (u : StatusUpdate) : List (String × StatusRecord) :=
  m.map fun e => if e.1 = filePath then (e.1, update_upload_status e.2 u) else e

/-- `get_upload_summary_stats`: `(total, completed, failed, in_progress)`. -/
def get_upload_summary_stats (m : List (String × StatusRecord)) :
    Nat × Nat × Nat × Nat :=
  ( m.length
  , (m.filter fun e => e.2.status = .completed).length
  , (m.filter fun e => e.2.status = .failed).length
  , (m.filter fun e =>
      e.2.status = .uploading ∨ e.2.status = .retrying).length )

/-! ## State-machine predicates over a run's trace -/

/-- A status is terminal when it is `completed` or `failed`. -/
def isTerminal : UploadStatus → Bool
  | .completed => true
  | .failed => true
  | _ => false

/-- `chainOk step prev l`: every state change along `prev :: l` is
allowed by `step`; writing the same state again is always allowed. -/
def chainOk (step : UploadStatus → UploadStatus → Bool) :
    UploadStatus → List UploadStatus → Bool
  | _, [] => true
  | prev, s :: rest => (s == prev || step prev s) && chainOk step s rest

/-- Modelled from the spec: the transition relation of the sentence
"state transitions only follow
`Pending → Uploading → (Retrying → Uploading)* → {Completed | Failed}`". -/
def specChainStep : UploadStatus → UploadStatus → Bool
  | .pending, .uploading => true
  | .uploading, .retrying => true
  | .retrying, .uploading => true
  | .uploading, .completed => true
  | .uploading, .failed => true
  | _, _ => false

/-- The transition relation the retry engine actually follows:
`Retrying` repeats and terminal states are entered from `Uploading` or
`Retrying` directly; the duplicate-guard rejection writes `Failed`
straight from `Pending`. -/
def codeChainStep : UploadStatus → UploadStatus → Bool
  | .pending, .uploading => true
  | .pending, .failed => true
  | .uploading, .retrying => true
  | .uploading, .completed => true
  | .uploading, .failed => true
  | .retrying, .completed => true
  | .retrying, .failed => true
  | _, _ => false

/-- No status update in the list writes a terminal state except the
last one. -/
def noTermMid : List UploadStatus → Bool
  | [] => true
  | s :: rest => (rest.isEmpty || !isTerminal s) && noTermMid rest

/-- `callsOk last idx evs`: in `evs`, the status written last before the
collaborator call with 0-based index `idx` is `uploading` for the first
call and `retrying` for every later call. -/
def callsOk : Option UploadStatus → Nat → List UEvent → Bool
  | _, _, [] => true
  | _, idx, .upd u :: rest => callsOk (some u.state) idx rest
  | last, idx, .sleep _ :: rest => callsOk last idx rest
  | last, idx, .call :: rest =>
    (last == some (if idx = 0 then .uploading else .retrying)) &&
      callsOk last (idx + 1) rest

/-! ## Duplicate detection (`helpers.py` lines 680-841)

`calculate_file_hash` reads the file system, so the content digest is
modelled as an oracle `hashF : String → Option String`: `hashF p = none`
when hashing `p` raises (the file is skipped with a warning), otherwise
the digest of `p`'s bytes; identical bytes give identical digests. -/

/-- `hash_to_files[file_hash].append(file_path)`, creating the key at
the end of the insertion-ordered dict when it is new. -/
def addToGroup (acc : List (String × List String)) (h p : String) :
    List (String × List String) :=
  if acc.any fun g => g.1 == h then
    acc.map fun g => if g.1 = h then (g.1, g.2 ++ [p]) else g
  else
    acc ++ [(h, [p])]

/-- One iteration of the hashing loop of `detect_duplicate_files`:
hash the file and group it, or skip it with a warning when
`calculate_file_hash` raises. -/
def detectStep (hashF : String → Option String)
    (acc : List (String × List String)) (p : String) :
    List (String × List String) :=
  match hashF p with
  | some h => addToGroup acc h p
  | none => acc

/-- The `hash_to_files` dict built by `detect_duplicate_files`. -/
def buildHashGroups (hashF : String → Option String)
    (filePaths : List String) : List (String × List String) :=
  filePaths.foldl (detectStep hashF) []

/-- `detect_duplicate_files`: only the groups with 2+ files. -/
def detect_duplicate_files (hashF : String → Option String)
    (filePaths : List String) : List (String × List String) :=
  (buildHashGroups hashF filePaths).filter fun g => 1 < g.2.length

/-- The files kept from one duplicate group in interactive mode, given
the raw prompt answer: `all` keeps the whole group, a valid 1-based
index keeps that member, anything else falls back to the first file. -/
def chooseFromGroup (dupFiles : List String) (selection : String) :
    List String :=
  if lowerStr selection = "all" then dupFiles
  else
    match selection.toInt? with
    | some idx =>
      if 1 ≤ idx ∧ idx ≤ dupFiles.length then
        [dupFiles.getD ((idx - 1).toNat) ""]
      else [dupFiles.headD ""]
    | none => [dupFiles.headD ""]

/-- `get_deduplicated_files`.  `selections g` is the prompt answer for
the 1-based duplicate group number `g` in interactive mode. -/
def get_deduplicated_files (hashF : String → Option String)
    (filePaths : List String) (interactive : Bool)
    (selections : Nat → String) :
    List String × List (String × List String) :=
  let duplicates := detect_duplicate_files hashF filePaths
  if duplicates.isEmpty then (filePaths, [])
  else
    let allDuplicateFiles := duplicates.foldl (fun s g => s ++ g.2) []
    let keepBase := filePaths.filter fun p => !(allDuplicateFiles.contains p)
    let chosen :=
      if interactive then
        duplicates.enum.foldl
          (fun ks ig => ks ++ chooseFromGroup ig.2.2 (selections (ig.1 + 1)))
          []
      else
        duplicates.map fun g => g.2.headD ""
    (keepBase ++ chosen, duplicates)

/-! ## Per-file wrapper and batch scheduler (`upload_to_FileStore.py`) -/

/-- `f"{store_name}:{file_path}" in _active_uploads`
(`is_upload_in_progress`, `helpers.py` lines 664-677). -/
def is_upload_in_progress (active : List String)
    (filePath storeName : String) : Bool :=
  active.contains (storeName ++ ":" ++ filePath)

/-- `Path(file_path).name`: the part after the last path separator. -/
def pathBasename (p : String) : String :=
  ⟨p.data.foldl (fun acc c => if c = '/' then [] else acc ++ [c]) []⟩

/-- The result dict of `upload_file_to_store`. -/
structure FileResult where
  success : Bool
  file_path : String
  display_name : String := ""
  message : String := ""
  error : String := ""
deriving DecidableEq, Repr

/-- `upload_file_to_store` (`upload_to_FileStore.py` lines 48-163):
the duplicate pre-check via `is_upload_in_progress`, then the retried
upload.  Chunking configuration and metadata extraction only shape the
opaque `config` passed to the collaborator and are omitted. -/
def upload_file_to_store (patterns : List String)
    (outcomes : Nat → AttemptOutcome) (draws : Nat → ℚ)
    (storeName filePath : String) (displayName : Option String)
    (maxRetries : Nat) (initialDelay maxDelay : ℚ) (tracker : Bool)
    (active : List String) : FileResult × List UEvent :=
  let dn := match displayName with
    | some d => if d = "" then pathBasename filePath else d
    | none => pathBasename filePath
  if is_upload_in_progress active filePath storeName then
    ({ success := false, file_path := filePath
       error := "Upload already in progress for this file" }, [])
  else
    let r := upload_with_retry patterns outcomes draws filePath storeName
      maxRetries initialDelay maxDelay tracker active
    if r.success then
      ({ success := true, file_path := filePath, display_name := dn
         message := "File uploaded and indexed successfully" }, r.events)
    else
      ({ success := false, file_path := filePath, error := r.message },
        r.events)

/-- The status map set up by `upload_multiple_files` before dispatch:
`clear_upload_statuses()` then `init_upload_status` per file. -/
def initialStatuses (filePaths : List String) :
    List (String × StatusRecord) :=
  filePaths.map fun p => (p, init_upload_status)

/-- The body of the `as_completed` loop of `upload_multiple_files`: a
terminal result is routed to `successful` or `failed`; a future that
raised is recorded as a failed entry. -/
def collectResult (acc : List FileResult × List FileResult)
    (c : String × Except String FileResult) :
    List FileResult × List FileResult :=
  match c.2 with
  | .ok r => if r.success then (acc.1 ++ [r], acc.2) else (acc.1, acc.2 ++ [r])
  | .error e =>
    (acc.1, acc.2 ++
      [{ success := false, file_path := c.1
         error := "Unexpected error: " ++ e }])

/-- The batch summary returned by `upload_multiple_files`. -/
structure BatchResult where
  total : Nat
  successful : List FileResult
  failed : List FileResult
deriving DecidableEq, Repr

/-- `upload_multiple_files` (`upload_to_FileStore.py` lines 216-290).
The thread pool is modelled by `completions`: the terminal result of
each submitted task, listed in completion order (each entry pairs the
file path with `future.result()` or the exception it raised). -/
def upload_multiple_files (filePaths : List String)
    (completions : List (String × Except String FileResult)) : BatchResult :=
  let sf := completions.foldl collectResult ([], [])
  { total := filePaths.length, successful := sf.1, failed := sf.2 }

/-! ## Trace arithmetic helper lemmas -/

@[simp] theorem countCalls_nil : countCalls [] = 0 := rfl

@[simp] theorem countCalls_cons_call (l : List UEvent) :
    countCalls (.call :: l) = countCalls l + 1 := by
  simp [countCalls, List.filter]

@[simp] theorem countCalls_cons_upd (u : StatusUpdate) (l : List UEvent) :
    countCalls (.upd u :: l) = countCalls l := by
  simp [countCalls, List.filter]

@[simp] theorem countCalls_cons_sleep (d : ℚ) (l : List UEvent) :
    countCalls (.sleep d :: l) = countCalls l := by
  simp [countCalls, List.filter]

@[simp] theorem countCalls_append (l₁ l₂ : List UEvent) :
    countCalls (l₁ ++ l₂) = countCalls l₁ + countCalls l₂ := by
  simp [countCalls, List.filter_append]

@[simp] theorem countCalls_trackEvent (t : Bool) (u : StatusUpdate) :
    countCalls (trackEvent t u) = 0 := by
  unfold trackEvent; split <;> simp

@[simp] theorem countCalls_preEvents (t : Bool) (a mr : Nat) (le : String) :
    countCalls (preEvents t a mr le) = 0 := by
  unfold preEvents; split <;> simp

@[simp] theorem countCalls_backoffEvents (t : Bool) (a mr : Nat)
    (iD mD d : ℚ) (ne : String) :
    countCalls (backoffEvents t a mr iD mD d ne) = 0 := by
  unfold backoffEvents; split <;> simp

@[simp] theorem countSleeps_nil : countSleeps [] = 0 := rfl

@[simp] theorem countSleeps_cons_call (l : List UEvent) :
    countSleeps (.call :: l) = countSleeps l := by
  simp [countSleeps, List.filter]

@[simp] theorem countSleeps_cons_upd (u : StatusUpdate) (l : List UEvent) :
    countSleeps (.upd u :: l) = countSleeps l := by
  simp [countSleeps, List.filter]

@[simp] theorem countSleeps_cons_sleep (d : ℚ) (l : List UEvent) :
    countSleeps (.sleep d :: l) = countSleeps l + 1 := by
  simp [countSleeps, List.filter]

@[simp] theorem countSleeps_append (l₁ l₂ : List UEvent) :
    countSleeps (l₁ ++ l₂) = countSleeps l₁ + countSleeps l₂ := by
  simp [countSleeps, List.filter_append]

@[simp] theorem countSleeps_trackEvent (t : Bool) (u : StatusUpdate) :
    countSleeps (trackEvent t u) = 0 := by
  unfold trackEvent; split <;> simp

@[simp] theorem attemptsBounded_nil (b : Nat) : attemptsBounded b [] = true := rfl

@[simp] theorem attemptsBounded_cons_upd (b : Nat) (u : StatusUpdate)
    (l : List UEvent) :
    attemptsBounded b (.upd u :: l) =
      (decide (u.attempt ≤ b) && attemptsBounded b l) := by
  simp [attemptsBounded]

@[simp] theorem attemptsBounded_cons_call (b : Nat) (l : List UEvent) :
    attemptsBounded b (.call :: l) = attemptsBounded b l := by
  simp [attemptsBounded]

@[simp] theorem attemptsBounded_cons_sleep (b : Nat) (d : ℚ) (l : List UEvent) :
    attemptsBounded b (.sleep d :: l) = attemptsBounded b l := by
  simp [attemptsBounded]

@[simp] theorem attemptsBounded_append (b : Nat) (l₁ l₂ : List UEvent) :
    attemptsBounded b (l₁ ++ l₂) =
      (attemptsBounded b l₁ && attemptsBounded b l₂) := by
  simp [attemptsBounded, List.all_append]


theorem mem_trackEvent {e : UEvent} {t : Bool} {u : StatusUpdate}
    (h : e ∈ trackEvent t u) : t = true ∧ e = .upd u := by
  unfold trackEvent at h
  split at h <;> simp_all

theorem upd_mem_preEvents {u : StatusUpdate} {t : Bool} {a mr : Nat}
    {le : String} (h : UEvent.upd u ∈ preEvents t a mr le) : u.attempt = a := by
  unfold preEvents at h
  split at h <;> rcases mem_trackEvent h with ⟨-, h2⟩ <;> simp_all

theorem upd_mem_backoffEvents {u : StatusUpdate} {t : Bool} {a mr : Nat}
    {iD mD d : ℚ} {ne : String}
    (h : UEvent.upd u ∈ backoffEvents t a mr iD mD d ne) : u.attempt = a := by
  unfold backoffEvents at h
  split at h
  · rw [List.mem_append] at h
    rcases h with h | h
    · rcases mem_trackEvent h with ⟨-, h2⟩; simp_all
    · simp_all
  · simp_all

/-- The Bool predicate `attemptsBounded` says exactly that every status
update in the trace has `attempt ≤ b`. -/
theorem attemptsBounded_iff (b : Nat) (evs : List UEvent) :
    attemptsBounded b evs = true ↔
      ∀ u : StatusUpdate, UEvent.upd u ∈ evs → u.attempt ≤ b := by
  induction evs with
  | nil => simp
  | cons e t ih => cases e <;> simp_all

/-! ## Core bounds on the retry loop -/

/-- The loop makes at most one collaborator call per remaining
iteration. -/
theorem retryLoop_calls_le (patterns : List String)
    (outcomes : Nat → AttemptOutcome) (draws : Nat → ℚ) (maxRetries : Nat)
    (iD mD : ℚ) (tracker : Bool) :
    ∀ budget attempt lastError,
      countCalls (retryLoop patterns outcomes draws maxRetries iD mD tracker
        budget attempt lastError).2.2 ≤ budget := by
  intro budget
  induction budget with
  | zero => intro attempt lastError; simp [retryLoop]
  | succ b ih =>
    intro attempt lastError
    simp only [retryLoop]
    split
    · simp
    · split
      · rename_i msg heq h
        have := ih (attempt + 1) msg
        simp only [countCalls_append, countCalls_preEvents,
          countCalls_backoffEvents, countCalls_trackEvent,
          countCalls_cons_call, countCalls_nil]
        omega
      · simp
    · split
      · rename_i msg heq h
        have := ih (attempt + 1) msg
        simp only [countCalls_append, countCalls_preEvents,
          countCalls_backoffEvents, countCalls_trackEvent,
          countCalls_cons_call, countCalls_nil]
        omega
      · simp

/-- Every entered loop iteration performs its collaborator call. -/
theorem retryLoop_calls_pos (patterns : List String)
    (outcomes : Nat → AttemptOutcome) (draws : Nat → ℚ) (maxRetries : Nat)
    (iD mD : ℚ) (tracker : Bool) (budget attempt : Nat) (lastError : String) :
    1 ≤ countCalls (retryLoop patterns outcomes draws maxRetries iD mD tracker
      (budget + 1) attempt lastError).2.2 := by
  simp only [retryLoop]
  split
  · simp
  · split
    · simp only [countCalls_append, countCalls_preEvents,
        countCalls_backoffEvents, countCalls_trackEvent,
        countCalls_cons_call, countCalls_nil]
      omega
    · simp
  · split
    · simp only [countCalls_append, countCalls_preEvents,
        countCalls_backoffEvents, countCalls_trackEvent,
        countCalls_cons_call, countCalls_nil]
      omega
    · simp


/-- Every status update written by the loop carries
`attempt ≤ maxRetries + 1`. -/
theorem retryLoop_attempt_fields (patterns : List String)
    (outcomes : Nat → AttemptOutcome) (draws : Nat → ℚ) (maxRetries : Nat)
    (iD mD : ℚ) (tracker : Bool) :
    ∀ budget attempt lastError, attempt + budget ≤ maxRetries + 1 →
      ∀ u : StatusUpdate,
        UEvent.upd u ∈ (retryLoop patterns outcomes draws maxRetries iD mD
          tracker budget attempt lastError).2.2 →
        u.attempt ≤ maxRetries + 1 := by
  intro budget
  induction budget with
  | zero =>
    intro attempt lastError hle u hu
    simp only [retryLoop] at hu
    rcases mem_trackEvent hu with ⟨-, h2⟩
    simp_all
  | succ b ih =>
    intro attempt lastError hle u hu
    rcases houtcome : outcomes attempt with msg | msg | msg <;>
      simp only [retryLoop, houtcome] at hu
    · simp only [List.append_assoc, List.mem_append, List.mem_cons] at hu
      rcases hu with hu | hu | hu
      · have := upd_mem_preEvents hu; omega
      · simp_all
      · rcases mem_trackEvent hu with ⟨-, h2⟩; simp_all
    · split at hu
      · simp only [List.append_assoc, List.mem_append, List.mem_cons] at hu
        rcases hu with hu | hu | hu | hu
        · have := upd_mem_preEvents hu; omega
        · simp_all
        · have := upd_mem_backoffEvents hu; omega
        · exact ih (attempt + 1) msg (by omega) u hu
      · simp only [List.append_assoc, List.mem_append, List.mem_cons] at hu
        rcases hu with hu | hu | hu
        · have := upd_mem_preEvents hu; omega
        · simp_all
        · rcases mem_trackEvent hu with ⟨-, h2⟩; simp_all
    · split at hu
      · simp only [List.append_assoc, List.mem_append, List.mem_cons] at hu
        rcases hu with hu | hu | hu | hu
        · have := upd_mem_preEvents hu; omega
        · simp_all
        · have := upd_mem_backoffEvents hu; omega
        · exact ih (attempt + 1) msg (by omega) u hu
      · simp only [List.append_assoc, List.mem_append, List.mem_cons] at hu
        rcases hu with hu | hu | hu
        · have := upd_mem_preEvents hu; omega
        · simp_all
        · rcases mem_trackEvent hu with ⟨-, h2⟩
          rw [UEvent.upd.injEq] at h2
          subst h2; simp; omega


/-! ## statesOf helper lemmas -/

@[simp] theorem statesOf_nil : statesOf [] = [] := rfl

@[simp] theorem statesOf_cons_upd (u : StatusUpdate) (l : List UEvent) :
    statesOf (.upd u :: l) = u.state :: statesOf l := by
  simp [statesOf]

@[simp] theorem statesOf_cons_call (l : List UEvent) :
    statesOf (.call :: l) = statesOf l := by
  simp [statesOf]

@[simp] theorem statesOf_cons_sleep (d : ℚ) (l : List UEvent) :
    statesOf (.sleep d :: l) = statesOf l := by
  simp [statesOf]

@[simp] theorem statesOf_append (l₁ l₂ : List UEvent) :
    statesOf (l₁ ++ l₂) = statesOf l₁ ++ statesOf l₂ := by
  simp [statesOf]

@[simp] theorem statesOf_trackEvent_true (u : StatusUpdate) :
    statesOf (trackEvent true u) = [u.state] := by
  simp [trackEvent]

theorem statesOf_preEvents_true (a mr : Nat) (le : String) :
    statesOf (preEvents true a mr le) =
      [if a = 0 then .uploading else .retrying] := by
  unfold preEvents
  split <;> simp_all

theorem statesOf_backoffEvents_true (a mr : Nat) (iD mD d : ℚ) (ne : String) :
    statesOf (backoffEvents true a mr iD mD d ne) =
      if a ≤ mr then [.retrying] else [] := by
  unfold backoffEvents
  split <;> simp_all

/-! ## chainOk helper lemmas -/

@[simp] theorem chainOk_nil (step : UploadStatus → UploadStatus → Bool)
    (prev : UploadStatus) : chainOk step prev [] = true := rfl

theorem chainOk_cons (step : UploadStatus → UploadStatus → Bool)
    (prev s : UploadStatus) (l : List UploadStatus) :
    chainOk step prev (s :: l) =
      ((s == prev || step prev s) && chainOk step s l) := rfl

theorem chainOk_append (step : UploadStatus → UploadStatus → Bool)
    (l₁ l₂ : List UploadStatus) :
    ∀ prev, chainOk step prev (l₁ ++ l₂) =
      (chainOk step prev l₁ && chainOk step (l₁.getLastD prev) l₂) := by
  induction l₁ with
  | nil => intro prev; simp [List.getLastD]
  | cons s t ih =>
    intro prev
    simp only [List.cons_append, chainOk_cons, ih s, List.getLastD_cons,
      Bool.and_assoc]

/-! ## noTermMid helper lemmas -/

@[simp] theorem noTermMid_nil : noTermMid [] = true := rfl

theorem noTermMid_cons_nonterm (s : UploadStatus) (l : List UploadStatus)
    (h : isTerminal s = false) : noTermMid (s :: l) = noTermMid l := by
  cases l <;> simp [noTermMid, h]

@[simp] theorem noTermMid_single (s : UploadStatus) :
    noTermMid [s] = true := by
  simp [noTermMid]

/-! ## callsOk helper lemmas -/

@[simp] theorem callsOk_nil (last : Option UploadStatus) (idx : Nat) :
    callsOk last idx [] = true := rfl

theorem callsOk_cons_upd (last : Option UploadStatus) (idx : Nat)
    (u : StatusUpdate) (l : List UEvent) :
    callsOk last idx (.upd u :: l) = callsOk (some u.state) idx l := rfl

theorem callsOk_cons_sleep (last : Option UploadStatus) (idx : Nat) (d : ℚ)
    (l : List UEvent) :
    callsOk last idx (.sleep d :: l) = callsOk last idx l := rfl

theorem callsOk_cons_call (last : Option UploadStatus) (idx : Nat)
    (l : List UEvent) :
    callsOk last idx (.call :: l) =
      ((last == some (if idx = 0 then .uploading else .retrying)) &&
        callsOk last (idx + 1) l) := rfl

theorem callsOk_trackEvent_true (last : Option UploadStatus) (idx : Nat)
    (u : StatusUpdate) (l : List UEvent) :
    callsOk last idx (trackEvent true u ++ l) = callsOk (some u.state) idx l := by
  simp [trackEvent, callsOk_cons_upd]

theorem callsOk_preEvents_true (last : Option UploadStatus) (idx : Nat)
    (a mr : Nat) (le : String) (l : List UEvent) :
    callsOk last idx (preEvents true a mr le ++ l) =
      callsOk (some (if a = 0 then .uploading else .retrying)) idx l := by
  unfold preEvents
  split <;> simp_all [callsOk_trackEvent_true]

theorem callsOk_backoffEvents_true (last : Option UploadStatus) (idx : Nat)
    (a mr : Nat) (iD mD d : ℚ) (ne : String) (l : List UEvent) :
    callsOk last idx (backoffEvents true a mr iD mD d ne ++ l) =
      callsOk (if a ≤ mr then some .retrying else last) idx l := by
  unfold backoffEvents
  split <;> simp_all [callsOk_trackEvent_true, callsOk_cons_sleep]


/-- The status-state trace of the retry loop follows `codeChainStep`. -/
theorem retryLoop_chainOk (patterns : List String)
    (outcomes : Nat → AttemptOutcome) (draws : Nat → ℚ) (maxRetries : Nat)
    (iD mD : ℚ) :
    ∀ budget attempt lastError (prev : UploadStatus),
      (attempt = 0 → prev = .pending) →
      (attempt ≠ 0 → prev = .uploading ∨ prev = .retrying) →
      chainOk codeChainStep prev
        (statesOf (retryLoop patterns outcomes draws maxRetries iD mD true
          budget attempt lastError).2.2) = true := by
  intro budget
  induction budget with
  | zero =>
    intro attempt lastError prev h0 h1
    simp only [retryLoop, statesOf_trackEvent_true]
    by_cases hA : attempt = 0
    · rw [h0 hA]; decide
    · rcases h1 hA with h | h <;> rw [h] <;> decide
  | succ b ih =>
    intro attempt lastError prev h0 h1
    have hstep : ((if attempt = 0 then UploadStatus.uploading
        else UploadStatus.retrying) == prev ||
        codeChainStep prev
          (if attempt = 0 then UploadStatus.uploading else .retrying)) = true := by
      by_cases hA : attempt = 0
      · rw [h0 hA, if_pos hA]; decide
      · rcases h1 hA with h | h <;> rw [h, if_neg hA] <;> decide
    have hmid : ((UploadStatus.retrying == (if attempt = 0 then
        UploadStatus.uploading else .retrying)) ||
        codeChainStep (if attempt = 0 then UploadStatus.uploading
          else .retrying) .retrying) = true := by
      by_cases hA : attempt = 0
      · simp only [hA, if_true]; decide
      · simp only [hA, if_false]; decide
    rcases houtcome : outcomes attempt with msg | msg | msg <;>
      simp only [retryLoop, houtcome]
    · -- success
      simp only [statesOf_append, statesOf_preEvents_true, statesOf_cons_call,
        statesOf_nil, statesOf_trackEvent_true, List.append_assoc,
        List.nil_append, List.singleton_append, chainOk_cons, chainOk_nil,
        Bool.and_true]
      rw [hstep]
      rw [Bool.true_and]
      by_cases hA : attempt = 0 <;> simp only [hA, if_true, if_false] <;> decide
    · split
      · -- transient wait failure
        by_cases hB : attempt + 1 ≤ maxRetries
        · simp only [statesOf_append, statesOf_preEvents_true,
            statesOf_cons_call, statesOf_backoffEvents_true, if_pos hB,
            List.append_assoc, List.nil_append, List.singleton_append,
            chainOk_cons]
          rw [hstep, hmid, ih (attempt + 1) msg .retrying (by omega)
            (fun _ => Or.inr rfl)]
          rfl
        · simp only [statesOf_append, statesOf_preEvents_true,
            statesOf_cons_call, statesOf_backoffEvents_true, if_neg hB,
            List.append_assoc, List.nil_append, List.singleton_append,
            chainOk_cons]
          rw [hstep, ih (attempt + 1) msg _ (by omega)
            (fun _ => by by_cases hA : attempt = 0 <;> simp [hA])]
          rfl
      · -- fatal wait failure
        simp only [statesOf_append, statesOf_preEvents_true, statesOf_cons_call,
          statesOf_nil, statesOf_trackEvent_true, List.append_assoc,
          List.nil_append, List.singleton_append, chainOk_cons, chainOk_nil,
          Bool.and_true]
        rw [hstep]
        rw [Bool.true_and]
        by_cases hA : attempt = 0 <;> simp only [hA, if_true, if_false] <;> decide
    · split
      · -- transient exception
        by_cases hB : attempt + 1 ≤ maxRetries
        · simp only [statesOf_append, statesOf_preEvents_true,
            statesOf_cons_call, statesOf_backoffEvents_true, if_pos hB,
            List.append_assoc, List.nil_append, List.singleton_append,
            chainOk_cons]
          rw [hstep, hmid, ih (attempt + 1) msg .retrying (by omega)
            (fun _ => Or.inr rfl)]
          rfl
        · simp only [statesOf_append, statesOf_preEvents_true,
            statesOf_cons_call, statesOf_backoffEvents_true, if_neg hB,
            List.append_assoc, List.nil_append, List.singleton_append,
            chainOk_cons]
          rw [hstep, ih (attempt + 1) msg _ (by omega)
            (fun _ => by by_cases hA : attempt = 0 <;> simp [hA])]
          rfl
      · -- fatal exception
        simp only [statesOf_append, statesOf_preEvents_true, statesOf_cons_call,
          statesOf_nil, statesOf_trackEvent_true, List.append_assoc,
          List.nil_append, List.singleton_append, chainOk_cons, chainOk_nil,
          Bool.and_true]
        rw [hstep]
        rw [Bool.true_and]
        by_cases hA : attempt = 0 <;> simp only [hA, if_true, if_false] <;> decide


/-- The retry loop never writes a status update after a terminal one. -/
theorem retryLoop_noTermMid (patterns : List String)
    (outcomes : Nat → AttemptOutcome) (draws : Nat → ℚ) (maxRetries : Nat)
    (iD mD : ℚ) :
    ∀ budget attempt lastError,
      noTermMid (statesOf (retryLoop patterns outcomes draws maxRetries iD mD
        true budget attempt lastError).2.2) = true := by
  intro budget
  induction budget with
  | zero =>
    intro attempt lastError
    simp only [retryLoop, statesOf_trackEvent_true, noTermMid_single]
  | succ b ih =>
    intro attempt lastError
    have hpre : isTerminal (if attempt = 0 then UploadStatus.uploading
        else .retrying) = false := by
      by_cases hA : attempt = 0 <;> simp [hA, isTerminal]
    rcases houtcome : outcomes attempt with msg | msg | msg <;>
      simp only [retryLoop, houtcome]
    · simp only [statesOf_append, statesOf_preEvents_true, statesOf_cons_call,
        statesOf_nil, statesOf_trackEvent_true, List.append_assoc,
        List.nil_append, List.singleton_append]
      rw [noTermMid_cons_nonterm _ _ hpre, noTermMid_single]
    · split
      · by_cases hB : attempt + 1 ≤ maxRetries
        · simp only [statesOf_append, statesOf_preEvents_true,
            statesOf_cons_call, statesOf_backoffEvents_true, if_pos hB,
            List.append_assoc, List.nil_append, List.singleton_append]
          rw [noTermMid_cons_nonterm _ _ hpre,
            noTermMid_cons_nonterm _ _ (by simp [isTerminal])]
          exact ih (attempt + 1) msg
        · simp only [statesOf_append, statesOf_preEvents_true,
            statesOf_cons_call, statesOf_backoffEvents_true, if_neg hB,
            List.append_assoc, List.nil_append, List.singleton_append]
          rw [noTermMid_cons_nonterm _ _ hpre]
          exact ih (attempt + 1) msg
      · simp only [statesOf_append, statesOf_preEvents_true, statesOf_cons_call,
          statesOf_nil, statesOf_trackEvent_true, List.append_assoc,
          List.nil_append, List.singleton_append]
        rw [noTermMid_cons_nonterm _ _ hpre, noTermMid_single]
    · split
      · by_cases hB : attempt + 1 ≤ maxRetries
        · simp only [statesOf_append, statesOf_preEvents_true,
            statesOf_cons_call, statesOf_backoffEvents_true, if_pos hB,
            List.append_assoc, List.nil_append, List.singleton_append]
          rw [noTermMid_cons_nonterm _ _ hpre,
            noTermMid_cons_nonterm _ _ (by simp [isTerminal])]
          exact ih (attempt + 1) msg
        · simp only [statesOf_append, statesOf_preEvents_true,
            statesOf_cons_call, statesOf_backoffEvents_true, if_neg hB,
            List.append_assoc, List.nil_append, List.singleton_append]
          rw [noTermMid_cons_nonterm _ _ hpre]
          exact ih (attempt + 1) msg
      · simp only [statesOf_append, statesOf_preEvents_true, statesOf_cons_call,
          statesOf_nil, statesOf_trackEvent_true, List.append_assoc,
          List.nil_append, List.singleton_append]
        rw [noTermMid_cons_nonterm _ _ hpre, noTermMid_single]

/-- Before every collaborator call the tracker was last set to
`UPLOADING` for the first attempt and `RETRYING` for retries. -/
theorem retryLoop_callsOk (patterns : List String)
    (outcomes : Nat → AttemptOutcome) (draws : Nat → ℚ) (maxRetries : Nat)
    (iD mD : ℚ) :
    ∀ budget attempt lastError (last : Option UploadStatus),
      callsOk last attempt (retryLoop patterns outcomes draws maxRetries iD mD
        true budget attempt lastError).2.2 = true := by
  intro budget
  induction budget with
  | zero =>
    intro attempt lastError last
    simp [retryLoop, trackEvent, callsOk_cons_upd]
  | succ b ih =>
    intro attempt lastError last
    rcases houtcome : outcomes attempt with msg | msg | msg <;>
      simp only [retryLoop, houtcome]
    · rw [List.append_assoc, callsOk_preEvents_true, List.singleton_append,
        callsOk_cons_call]
      simp [trackEvent, callsOk_cons_upd]
    · split
      · rw [List.append_assoc, List.append_assoc, callsOk_preEvents_true,
          List.singleton_append, callsOk_cons_call,
          callsOk_backoffEvents_true]
        simp only [beq_self_eq_true, Bool.true_and]
        split <;> exact ih (attempt + 1) msg _
      · rw [List.append_assoc, callsOk_preEvents_true, List.singleton_append,
          callsOk_cons_call]
        simp [trackEvent, callsOk_cons_upd]
    · split
      · rw [List.append_assoc, List.append_assoc, callsOk_preEvents_true,
          List.singleton_append, callsOk_cons_call,
          callsOk_backoffEvents_true]
        simp only [beq_self_eq_true, Bool.true_and]
        split <;> exact ih (attempt + 1) msg _
      · rw [List.append_assoc, callsOk_preEvents_true, List.singleton_append,
          callsOk_cons_call]
        simp [trackEvent, callsOk_cons_upd]


/-- C1: for every file, configuration and outcome sequence, the retry
engine performs at most `maxRetries + 1` collaborator calls, and every
status update it ever writes carries `attempt ≤ maxRetries + 1`. -/
theorem C1_retry_attempt_bound (patterns : List String)
    (outcomes : Nat → AttemptOutcome) (draws : Nat → ℚ)
    (filePath storeName : String) (maxRetries : Nat)
    (initialDelay maxDelay : ℚ) (tracker : Bool) (active : List String) :
    countCalls (upload_with_retry patterns outcomes draws filePath storeName
      maxRetries initialDelay maxDelay tracker active).events ≤
        maxRetries + 1 ∧
    attemptsBounded (maxRetries + 1)
      (upload_with_retry patterns outcomes draws filePath storeName
        maxRetries initialDelay maxDelay tracker active).events = true := by
  simp only [upload_with_retry]
  split
  · refine ⟨by simp, ?_⟩
    rw [attemptsBounded_iff]
    intro u hu
    rcases mem_trackEvent hu with ⟨-, h2⟩
    rw [UEvent.upd.injEq] at h2
    subst h2
    simp
  · refine ⟨retryLoop_calls_le _ _ _ _ _ _ _ _ _ _, ?_⟩
    rw [attemptsBounded_iff]
    exact retryLoop_attempt_fields _ _ _ _ _ _ _ _ _ _ (by omega)

/-- C4: when the in-flight guard already holds the `(store, path)` key,
`upload_with_retry` fails immediately with the duplicate-in-progress
message, makes no collaborator call, sleeps no backoff delay, and
leaves the guard set (hence the first holder's key) untouched. -/
theorem C4_duplicate_guard (patterns : List String)
    (outcomes : Nat → AttemptOutcome) (draws : Nat → ℚ)
    (filePath storeName : String) (maxRetries : Nat)
    (initialDelay maxDelay : ℚ) (tracker : Bool) (active : List String)
    (h : storeName ++ ":" ++ filePath ∈ active) :
    (upload_with_retry patterns outcomes draws filePath storeName maxRetries
      initialDelay maxDelay tracker active).success = false ∧
    (upload_with_retry patterns outcomes draws filePath storeName maxRetries
      initialDelay maxDelay tracker active).message =
      "Upload already in progress for this file to this store" ∧
    countCalls (upload_with_retry patterns outcomes draws filePath storeName
      maxRetries initialDelay maxDelay tracker active).events = 0 ∧
    countSleeps (upload_with_retry patterns outcomes draws filePath storeName
      maxRetries initialDelay maxDelay tracker active).events = 0 ∧
    (upload_with_retry patterns outcomes draws filePath storeName maxRetries
      initialDelay maxDelay tracker active).activeAfter = active ∧
    storeName ++ ":" ++ filePath ∈
      (upload_with_retry patterns outcomes draws filePath storeName maxRetries
        initialDelay maxDelay tracker active).activeAfter := by
  simp [upload_with_retry, if_pos h, h]

theorem C4_duplicate_guard_witness :
    ("stores/s1" ++ ":" ++ "f.txt" ∈ ["stores/s1:f.txt"]) ∧
    (upload_with_retry RETRYABLE_ERROR_PATTERNS (fun _ => .ok "done")
      (fun _ => 0) "f.txt" "stores/s1" 3 1 32 true
      ["stores/s1:f.txt"]).success = false ∧
    (upload_with_retry RETRYABLE_ERROR_PATTERNS (fun _ => .ok "done")
      (fun _ => 0) "f.txt" "stores/s1" 3 1 32 true
      ["stores/s1:f.txt"]).message =
      "Upload already in progress for this file to this store" ∧
    countCalls (upload_with_retry RETRYABLE_ERROR_PATTERNS (fun _ => .ok "done")
      (fun _ => 0) "f.txt" "stores/s1" 3 1 32 true
      ["stores/s1:f.txt"]).events = 0 ∧
    countSleeps (upload_with_retry RETRYABLE_ERROR_PATTERNS (fun _ => .ok "done")
      (fun _ => 0) "f.txt" "stores/s1" 3 1 32 true
      ["stores/s1:f.txt"]).events = 0 ∧
    (upload_with_retry RETRYABLE_ERROR_PATTERNS (fun _ => .ok "done")
      (fun _ => 0) "f.txt" "stores/s1" 3 1 32 true
      ["stores/s1:f.txt"]).activeAfter = ["stores/s1:f.txt"] ∧
    "stores/s1" ++ ":" ++ "f.txt" ∈
      (upload_with_retry RETRYABLE_ERROR_PATTERNS (fun _ => .ok "done")
        (fun _ => 0) "f.txt" "stores/s1" 3 1 32 true
        ["stores/s1:f.txt"]).activeAfter :=
  ⟨by decide, C4_duplicate_guard _ _ _ _ _ _ _ _ _ _ (by decide)⟩

/-- C5: the pre-jitter delay before retry attempt `a + 1` is
`min(initialDelay * 2^(a-1), maxDelay)`; it never exceeds `maxDelay`
and is non-decreasing in `a`; the jitter perturbs it by at most 25% of
the delay; and the slept value is clamped to the positive floor 0.1. -/
theorem C5_backoff_delay (initialDelay maxDelay draw : ℚ) (a : Nat)
    (hinit : 0 ≤ initialDelay) (hmax : 0 ≤ maxDelay)
    (hdraw0 : 0 ≤ draw) (hdraw1 : draw ≤ 1) :
    backoffDelay initialDelay maxDelay a ≤ maxDelay ∧
    backoffDelay initialDelay maxDelay a ≤
      backoffDelay initialDelay maxDelay (a + 1) ∧
    |backoffDelay initialDelay maxDelay a * (1/4) * (2 * draw - 1)| ≤
      backoffDelay initialDelay maxDelay a * (1/4) ∧
    1/10 ≤ actualBackoffDelay initialDelay maxDelay a draw ∧
    0 < actualBackoffDelay initialDelay maxDelay a draw := by
  have hd : 0 ≤ backoffDelay initialDelay maxDelay a :=
    le_min (mul_nonneg hinit (pow_nonneg (by norm_num) _)) hmax
  refine ⟨min_le_right _ _, ?_, ?_, le_max_left _ _,
    lt_of_lt_of_le (by norm_num) (le_max_left _ _)⟩
  · unfold backoffDelay
    refine min_le_min ?_ le_rfl
    exact mul_le_mul_of_nonneg_left
      (pow_le_pow_right₀ (by norm_num) (by omega)) hinit
  · rw [abs_mul]
    have h1 : |2 * draw - 1| ≤ 1 := abs_le.mpr ⟨by linarith, by linarith⟩
    have h2 : |backoffDelay initialDelay maxDelay a * (1/4)| =
        backoffDelay initialDelay maxDelay a * (1/4) :=
      abs_of_nonneg (mul_nonneg hd (by norm_num))
    rw [h2]
    calc backoffDelay initialDelay maxDelay a * (1/4) * |2 * draw - 1| ≤
        backoffDelay initialDelay maxDelay a * (1/4) * 1 :=
          mul_le_mul_of_nonneg_left h1 (mul_nonneg hd (by norm_num))
      _ = backoffDelay initialDelay maxDelay a * (1/4) := mul_one _

theorem C5_backoff_delay_witness :
    backoffDelay 1 32 1 ≤ 32 ∧ (1:ℚ)/10 ≤ actualBackoffDelay 1 32 1 0 :=
  ⟨(C5_backoff_delay 1 32 0 1 (by decide) (by decide) (by decide)
      (by decide)).1,
    (C5_backoff_delay 1 32 0 1 (by decide) (by decide) (by decide)
      (by decide)).2.2.2.1⟩


/-- `retryLoop_calls_pos` restated for a positive budget. -/
theorem retryLoop_calls_pos_of_le (patterns : List String)
    (outcomes : Nat → AttemptOutcome) (draws : Nat → ℚ) (maxRetries : Nat)
    (iD mD : ℚ) (tracker : Bool) (budget attempt : Nat) (lastError : String)
    (hb : 1 ≤ budget) :
    1 ≤ countCalls (retryLoop patterns outcomes draws maxRetries iD mD tracker
      budget attempt lastError).2.2 := by
  obtain ⟨b, rfl⟩ : ∃ b, budget = b + 1 := ⟨budget - 1, by omega⟩
  exact retryLoop_calls_pos patterns outcomes draws maxRetries iD mD tracker
    b attempt lastError

/-- C2 (amended): classification of a first-attempt failure by the
retry engine.  An exception raised by the upload call is transient iff
its message contains a configured retryable substring
(case-insensitively); a failure reported by `wait_for_operation` —
including polling failures — is transient iff its message contains
"already been terminated"; every other failure is fatal: the engine
marks the file `Failed` and returns after that single call. -/
theorem C2_failure_classification (patterns : List String)
    (outcomes : Nat → AttemptOutcome) (draws : Nat → ℚ)
    (filePath storeName : String) (maxRetries : Nat)
    (initialDelay maxDelay : ℚ) (tracker : Bool) (active : List String)
    (msg : String)
    (hactive : storeName ++ ":" ++ filePath ∉ active) :
    (outcomes 0 = .exn msg →
      (patterns.any fun err => containsSub (lowerStr msg) err) = false →
      (upload_with_retry patterns outcomes draws filePath storeName maxRetries
        initialDelay maxDelay tracker active).success = false ∧
      (upload_with_retry patterns outcomes draws filePath storeName maxRetries
        initialDelay maxDelay tracker active).message =
          "Upload failed: " ++ msg ∧
      countCalls (upload_with_retry patterns outcomes draws filePath storeName
        maxRetries initialDelay maxDelay tracker active).events = 1) ∧
    (outcomes 0 = .exn msg →
      (patterns.any fun err => containsSub (lowerStr msg) err) = true →
      1 ≤ maxRetries →
      2 ≤ countCalls (upload_with_retry patterns outcomes draws filePath
        storeName maxRetries initialDelay maxDelay tracker active).events) ∧
    (outcomes 0 = .waitFail msg →
      containsSub (lowerStr msg) "already been terminated" = false →
      (upload_with_retry patterns outcomes draws filePath storeName maxRetries
        initialDelay maxDelay tracker active).success = false ∧
      (upload_with_retry patterns outcomes draws filePath storeName maxRetries
        initialDelay maxDelay tracker active).message = msg ∧
      countCalls (upload_with_retry patterns outcomes draws filePath storeName
        maxRetries initialDelay maxDelay tracker active).events = 1) ∧
    (outcomes 0 = .waitFail msg →
      containsSub (lowerStr msg) "already been terminated" = true →
      1 ≤ maxRetries →
      2 ≤ countCalls (upload_with_retry patterns outcomes draws filePath
        storeName maxRetries initialDelay maxDelay tracker active).events) := by
  refine ⟨?_, ?_, ?_, ?_⟩
  · intro houtcome hmatch
    simp [upload_with_retry, if_neg hactive, retryLoop, houtcome, hmatch]
  · intro houtcome hmatch hmr
    have hp := retryLoop_calls_pos_of_le patterns outcomes draws maxRetries
      initialDelay maxDelay tracker maxRetries 1 msg hmr
    simp only [upload_with_retry, if_neg hactive, retryLoop, houtcome, hmatch,
      if_true, countCalls_append, countCalls_preEvents,
      countCalls_backoffEvents, countCalls_cons_call, countCalls_nil,
      Nat.zero_add]
    omega
  · intro houtcome hmatch
    simp [upload_with_retry, if_neg hactive, retryLoop, houtcome, hmatch]
  · intro houtcome hmatch hmr
    have hp := retryLoop_calls_pos_of_le patterns outcomes draws maxRetries
      initialDelay maxDelay tracker maxRetries 1 msg hmr
    simp only [upload_with_retry, if_neg hactive, retryLoop, houtcome, hmatch,
      if_true, countCalls_append, countCalls_preEvents,
      countCalls_backoffEvents, countCalls_cons_call, countCalls_nil,
      Nat.zero_add]
    omega

theorem C2_failure_classification_witness :
    ((upload_with_retry RETRYABLE_ERROR_PATTERNS
      (fun _ => .exn "quota exceeded") (fun _ => 0) "f.txt" "stores/s1" 3 1 32
      true []).success = false ∧
     (upload_with_retry RETRYABLE_ERROR_PATTERNS
      (fun _ => .exn "quota exceeded") (fun _ => 0) "f.txt" "stores/s1" 3 1 32
      true []).message = "Upload failed: " ++ "quota exceeded" ∧
     countCalls (upload_with_retry RETRYABLE_ERROR_PATTERNS
      (fun _ => .exn "quota exceeded") (fun _ => 0) "f.txt" "stores/s1" 3 1 32
      true []).events = 1) ∧
    2 ≤ countCalls (upload_with_retry RETRYABLE_ERROR_PATTERNS
      (fun _ => .exn "503 service unavailable") (fun _ => 0) "f.txt"
      "stores/s1" 3 1 32 true []).events ∧
    ((upload_with_retry RETRYABLE_ERROR_PATTERNS
      (fun _ => .waitFail "Error checking operation status: connection refused")
      (fun _ => 0) "f.txt" "stores/s1" 3 1 32 true []).success = false ∧
     (upload_with_retry RETRYABLE_ERROR_PATTERNS
      (fun _ => .waitFail "Error checking operation status: connection refused")
      (fun _ => 0) "f.txt" "stores/s1" 3 1 32 true []).message =
        "Error checking operation status: connection refused" ∧
     countCalls (upload_with_retry RETRYABLE_ERROR_PATTERNS
      (fun _ => .waitFail "Error checking operation status: connection refused")
      (fun _ => 0) "f.txt" "stores/s1" 3 1 32 true []).events = 1) ∧
    2 ≤ countCalls (upload_with_retry RETRYABLE_ERROR_PATTERNS
      (fun _ => .waitFail "Session has already been terminated")
      (fun _ => 0) "f.txt" "stores/s1" 3 1 32 true []).events :=
  ⟨(C2_failure_classification RETRYABLE_ERROR_PATTERNS
      (fun _ => .exn "quota exceeded") (fun _ => 0) "f.txt" "stores/s1" 3 1 32
      true [] "quota exceeded" (by decide)).1 rfl (by decide),
   (C2_failure_classification RETRYABLE_ERROR_PATTERNS
      (fun _ => .exn "503 service unavailable") (fun _ => 0) "f.txt"
      "stores/s1" 3 1 32 true [] "503 service unavailable"
      (by decide)).2.1 rfl (by decide) (by decide),
   (C2_failure_classification RETRYABLE_ERROR_PATTERNS
      (fun _ => .waitFail "Error checking operation status: connection refused")
      (fun _ => 0) "f.txt" "stores/s1" 3 1 32 true []
      "Error checking operation status: connection refused"
      (by decide)).2.2.1 rfl (by decide),
   (C2_failure_classification RETRYABLE_ERROR_PATTERNS
      (fun _ => .waitFail "Session has already been terminated")
      (fun _ => 0) "f.txt" "stores/s1" 3 1 32 true []
      "Session has already been terminated"
      (by decide)).2.2.2 rfl (by decide) (by decide)⟩

/-- C2 (counterexample): a failure whose message is reported by
`wait_for_operation` and contains the retryable substring "503" — and a
polling failure — are both treated as fatal by the engine: one call,
immediate `Failed`, no retry.  The claim says the first is transient
(its message matches a retryable pattern) and that polling failures
always are. -/
theorem C2_counterexample :
    wait_for_operation 300 ⟨true, some "503 service unavailable"⟩ [] =
      some (false, "Operation failed: 503 service unavailable") ∧
    wait_for_operation 300 ⟨false, none⟩ [(1, .error "connection refused")] =
      some (false, "Error checking operation status: connection refused") ∧
    (RETRYABLE_ERROR_PATTERNS.any fun err =>
      containsSub (lowerStr "Operation failed: 503 service unavailable") err)
      = true ∧
    (upload_with_retry RETRYABLE_ERROR_PATTERNS
      (fun _ => .waitFail "Operation failed: 503 service unavailable")
      (fun _ => 0) "a.txt" "stores/s1" 3 1 32 true []).success = false ∧
    countCalls (upload_with_retry RETRYABLE_ERROR_PATTERNS
      (fun _ => .waitFail "Operation failed: 503 service unavailable")
      (fun _ => 0) "a.txt" "stores/s1" 3 1 32 true []).events = 1 ∧
    statesOf (upload_with_retry RETRYABLE_ERROR_PATTERNS
      (fun _ => .waitFail "Operation failed: 503 service unavailable")
      (fun _ => 0) "a.txt" "stores/s1" 3 1 32 true []).events =
      [.uploading, .failed] ∧
    (upload_with_retry RETRYABLE_ERROR_PATTERNS
      (fun _ => .waitFail "Error checking operation status: connection refused")
      (fun _ => 0) "a.txt" "stores/s1" 3 1 32 true []).success = false ∧
    countCalls (upload_with_retry RETRYABLE_ERROR_PATTERNS
      (fun _ => .waitFail "Error checking operation status: connection refused")
      (fun _ => 0) "a.txt" "stores/s1" 3 1 32 true []).events = 1 := by
  decide

/-- C6 (amended): with the status tracker on, every run's status
updates follow `Pending → Uploading → Retrying* → {Completed | Failed}`
(with `Pending → Failed` for the duplicate-guard rejection), never
leave a terminal state, and the status written last before the first
collaborator call is `Uploading` and before every later call
`Retrying`. -/
theorem C6_state_machine (patterns : List String)
    (outcomes : Nat → AttemptOutcome) (draws : Nat → ℚ)
    (filePath storeName : String) (maxRetries : Nat)
    (initialDelay maxDelay : ℚ) (active : List String) :
    chainOk codeChainStep .pending
      (statesOf (upload_with_retry patterns outcomes draws filePath storeName
        maxRetries initialDelay maxDelay true active).events) = true ∧
    noTermMid (statesOf (upload_with_retry patterns outcomes draws filePath
      storeName maxRetries initialDelay maxDelay true active).events) = true ∧
    callsOk none 0 (upload_with_retry patterns outcomes draws filePath
      storeName maxRetries initialDelay maxDelay true active).events = true := by
  simp only [upload_with_retry]
  split
  · refine ⟨?_, ?_, ?_⟩
    · simp only [statesOf_trackEvent_true]; decide
    · simp only [statesOf_trackEvent_true]; decide
    · simp only [trackEvent, if_true]; decide
  · exact ⟨retryLoop_chainOk _ _ _ _ _ _ _ _ _ _ (fun _ => rfl)
        (fun hh => absurd rfl hh),
      retryLoop_noTermMid _ _ _ _ _ _ _ _ _,
      retryLoop_callsOk _ _ _ _ _ _ _ _ _ _⟩

/-- C6 (counterexample): a single transient "503 service unavailable"
failure followed by success produces the state trace
`Uploading, Retrying, Retrying, Completed`: the step
`Retrying → Completed` (without returning to `Uploading`) is not in the
spec's transition chain, so the trace violates
`Pending → Uploading → (Retrying → Uploading)* → {Completed | Failed}`
even when repeated states are collapsed. -/
theorem C6_counterexample :
    statesOf (upload_with_retry RETRYABLE_ERROR_PATTERNS
      (fun a => if a = 0 then .exn "503 service unavailable"
        else .ok "Operation completed successfully")
      (fun _ => 0) "b.txt" "stores/s1" 3 1 32 true []).events =
      [.uploading, .retrying, .retrying, .completed] ∧
    chainOk specChainStep .pending
      (statesOf (upload_with_retry RETRYABLE_ERROR_PATTERNS
        (fun a => if a = 0 then .exn "503 service unavailable"
          else .ok "Operation completed successfully")
        (fun _ => 0) "b.txt" "stores/s1" 3 1 32 true []).events) = false := by
  decide

/-- C9 (amended): two "503 service unavailable" exceptions followed by
success make exactly 3 collaborator calls and leave the final status
record `Completed` — but with `attempt = 0`, because the completion
update does not pass the attempt count and `update_upload_status`
resets it to its default. -/
theorem C9_scenario_b :
    countCalls (upload_with_retry RETRYABLE_ERROR_PATTERNS
      (fun a => if a < 2 then .exn "503 service unavailable"
        else .ok "Operation completed successfully")
      (fun _ => 0) "c.txt" "stores/s1" 3 1 32 true []).events = 3 ∧
    applyEvents init_upload_status (upload_with_retry RETRYABLE_ERROR_PATTERNS
      (fun a => if a < 2 then .exn "503 service unavailable"
        else .ok "Operation completed successfully")
      (fun _ => 0) "c.txt" "stores/s1" 3 1 32 true []).events =
      { status := .completed, attempt := 0, maxRetries := 0
        message := "Upload successful" } := by
  decide

/-- C9 (counterexample): in that run the final record's `attempt` field
is 0, not 3 as the claim states. -/
theorem C9_counterexample :
    (applyEvents init_upload_status (upload_with_retry
      RETRYABLE_ERROR_PATTERNS
      (fun a => if a < 2 then .exn "503 service unavailable"
        else .ok "Operation completed successfully")
      (fun _ => 0) "c.txt" "stores/s1" 3 1 32 true []).events).status =
        .completed ∧
    (applyEvents init_upload_status (upload_with_retry
      RETRYABLE_ERROR_PATTERNS
      (fun a => if a < 2 then .exn "503 service unavailable"
        else .ok "Operation completed successfully")
      (fun _ => 0) "c.txt" "stores/s1" 3 1 32 true []).events).attempt = 0 ∧
    ¬ ((applyEvents init_upload_status (upload_with_retry
      RETRYABLE_ERROR_PATTERNS
      (fun a => if a < 2 then .exn "503 service unavailable"
        else .ok "Operation completed successfully")
      (fun _ => 0) "c.txt" "stores/s1" 3 1 32 true []).events).attempt = 3) := by
  decide


/-- Each completion processed by `collectResult` lands in exactly one of
the two result lists. -/
theorem collectResult_counts :
    ∀ (completions : List (String × Except String FileResult))
      (s f : List FileResult),
      (completions.foldl collectResult (s, f)).1.length +
        (completions.foldl collectResult (s, f)).2.length =
        s.length + f.length + completions.length := by
  intro completions
  induction completions with
  | nil => intro s f; simp
  | cons c t ih =>
    intro s f
    obtain ⟨p, r⟩ := c
    rcases r with e | fr
    case error =>
      rw [List.foldl_cons, show collectResult (s, f) (p, Except.error e) =
          (s, f ++ [{ success := false, file_path := p
                      error := "Unexpected error: " ++ e }]) from by
            simp [collectResult]]
      rw [ih]; simp; omega
    case ok =>
      by_cases hs : fr.success = true
      · rw [List.foldl_cons, show collectResult (s, f) (p, Except.ok fr) =
            (s ++ [fr], f) from by simp [collectResult, hs]]
        rw [ih]; simp; omega
      · rw [List.foldl_cons, show collectResult (s, f) (p, Except.ok fr) =
            (s, f ++ [fr]) from by simp [collectResult, hs]]
        rw [ih]; simp; omega

/-- C3: when the pool delivers exactly one terminal result per submitted
file (`completions` is a permutation of the batch),
`upload_multiple_files` returns `total = |successful| + |failed|` with
`total` the number of submitted files. -/
theorem C3_batch_total (filePaths : List String)
    (completions : List (String × Except String FileResult))
    (h : (completions.map Prod.fst).Perm filePaths) :
    (upload_multiple_files filePaths completions).total =
      (upload_multiple_files filePaths completions).successful.length +
        (upload_multiple_files filePaths completions).failed.length ∧
    (upload_multiple_files filePaths completions).total =
      filePaths.length := by
  have hlen : completions.length = filePaths.length := by
    simpa using h.length_eq
  refine ⟨?_, rfl⟩
  have hc := collectResult_counts completions [] []
  simp only [List.length_nil, Nat.zero_add] at hc
  simp only [upload_multiple_files]
  omega

theorem C3_batch_total_witness :
    (upload_multiple_files ["a.txt", "b.txt"]
      [("b.txt", .ok { success := true, file_path := "b.txt" }),
       ("a.txt", .error "boom")]).total =
      (upload_multiple_files ["a.txt", "b.txt"]
        [("b.txt", .ok { success := true, file_path := "b.txt" }),
         ("a.txt", .error "boom")]).successful.length +
        (upload_multiple_files ["a.txt", "b.txt"]
          [("b.txt", .ok { success := true, file_path := "b.txt" }),
           ("a.txt", .error "boom")]).failed.length ∧
    (upload_multiple_files ["a.txt", "b.txt"]
      [("b.txt", .ok { success := true, file_path := "b.txt" }),
       ("a.txt", .error "boom")]).total =
      (["a.txt", "b.txt"] : List String).length :=
  C3_batch_total _ _ (by decide)

/-- C10: when the early pre-check of `upload_file_to_store` rejects a
file because its `(store, path)` key is in flight, the call returns a
failed result, emits no event at all — in particular no status update,
so a `Pending` record stays `Pending` — and the batch collector files
that result under `failed`, while the summary's `Failed` count over a
map holding the still-`Pending` record is 0. -/
theorem C10_precheck_skips_tracker (patterns : List String)
    (outcomes : Nat → AttemptOutcome) (draws : Nat → ℚ)
    (storeName filePath : String) (displayName : Option String)
    (maxRetries : Nat) (initialDelay maxDelay : ℚ) (tracker : Bool)
    (active : List String)
    (h : is_upload_in_progress active filePath storeName = true) :
    (upload_file_to_store patterns outcomes draws storeName filePath
      displayName maxRetries initialDelay maxDelay tracker active).1.success
      = false ∧
    (upload_file_to_store patterns outcomes draws storeName filePath
      displayName maxRetries initialDelay maxDelay tracker active).1.error =
      "Upload already in progress for this file" ∧
    (upload_file_to_store patterns outcomes draws storeName filePath
      displayName maxRetries initialDelay maxDelay tracker active).2 = [] ∧
    applyEvents init_upload_status
      (upload_file_to_store patterns outcomes draws storeName filePath
        displayName maxRetries initialDelay maxDelay tracker active).2 =
      init_upload_status ∧
    (get_upload_summary_stats (initialStatuses [filePath])).2.2.1 = 0 ∧
    (∀ s f : List FileResult,
      collectResult (s, f) (filePath,
        .ok (upload_file_to_store patterns outcomes draws storeName filePath
          displayName maxRetries initialDelay maxDelay tracker active).1) =
        (s, f ++ [(upload_file_to_store patterns outcomes draws storeName
          filePath displayName maxRetries initialDelay maxDelay tracker
          active).1])) := by
  refine ⟨?_, ?_, ?_, ?_, ?_, ?_⟩
  · simp [upload_file_to_store, h]
  · simp [upload_file_to_store, h]
  · simp [upload_file_to_store, h]
  · simp [upload_file_to_store, h, applyEvents]
  · simp [get_upload_summary_stats, initialStatuses, init_upload_status]
  · intro s f
    simp [upload_file_to_store, h, collectResult]

theorem C10_precheck_witness :
    is_upload_in_progress ["stores/s1:f.txt"] "f.txt" "stores/s1" = true ∧
    (upload_file_to_store RETRYABLE_ERROR_PATTERNS (fun _ => .ok "done")
      (fun _ => 0) "stores/s1" "f.txt" none 3 1 32 true
      ["stores/s1:f.txt"]).1.success = false ∧
    (upload_file_to_store RETRYABLE_ERROR_PATTERNS (fun _ => .ok "done")
      (fun _ => 0) "stores/s1" "f.txt" none 3 1 32 true
      ["stores/s1:f.txt"]).2 = [] ∧
    applyEvents init_upload_status
      (upload_file_to_store RETRYABLE_ERROR_PATTERNS (fun _ => .ok "done")
        (fun _ => 0) "stores/s1" "f.txt" none 3 1 32 true
        ["stores/s1:f.txt"]).2 = init_upload_status ∧
    (get_upload_summary_stats (initialStatuses ["f.txt"])).2.2.1 = 0 ∧
    collectResult ([], [])
      ("f.txt", .ok (upload_file_to_store RETRYABLE_ERROR_PATTERNS
        (fun _ => .ok "done") (fun _ => 0) "stores/s1" "f.txt" none 3 1 32
        true ["stores/s1:f.txt"]).1) =
      ([], [(upload_file_to_store RETRYABLE_ERROR_PATTERNS
        (fun _ => .ok "done") (fun _ => 0) "stores/s1" "f.txt" none 3 1 32
        true ["stores/s1:f.txt"]).1]) := by
  have hg := C10_precheck_skips_tracker RETRYABLE_ERROR_PATTERNS
    (fun _ => .ok "done") (fun _ => 0) "stores/s1" "f.txt" none 3 1 32 true
    ["stores/s1:f.txt"] (by decide)
  exact ⟨by decide, hg.1, hg.2.2.1, hg.2.2.2.1, hg.2.2.2.2.1,
    hg.2.2.2.2.2 [] []⟩


/-- The key-membership test of `addToGroup` is exactly existence of a
group with that key. -/
theorem addToGroup_any_iff (acc : List (String × List String)) (h : String) :
    (acc.any fun g => g.1 == h) = true ↔ ∃ g ∈ acc, g.1 = h := by
  simp [List.any_eq_true, beq_iff_eq]

theorem detectStep_some (hashF : String → Option String)
    (acc : List (String × List String)) (p h : String)
    (hf : hashF p = some h) : detectStep hashF acc p = addToGroup acc h p := by
  simp [detectStep, hf]

theorem detectStep_none (hashF : String → Option String)
    (acc : List (String × List String)) (p : String)
    (hf : hashF p = none) : detectStep hashF acc p = acc := by
  simp [detectStep, hf]

theorem addToGroup_pos (acc : List (String × List String)) (h p : String)
    (hkey : (acc.any fun g => g.1 == h) = true) :
    addToGroup acc h p =
      acc.map fun g => if g.1 = h then (g.1, g.2 ++ [p]) else g := by
  rw [addToGroup, if_pos hkey]

theorem addToGroup_neg (acc : List (String × List String)) (h p : String)
    (hkey : ¬ (acc.any fun g => g.1 == h) = true) :
    addToGroup acc h p = acc ++ [(h, [p])] := by
  rw [addToGroup, if_neg hkey]

/-- Invariant of the `hash_to_files` fold of `detect_duplicate_files`:
keys are distinct, each group is exactly the filter of the processed
files by its key, groups are nonempty, and every successfully hashed
processed file has a group. -/
theorem buildGroups_aux (hashF : String → Option String) :
    ∀ (files : List String) (acc : List (String × List String))
      (processed : List String),
      ((acc.map Prod.fst).Nodup ∧
        (∀ g ∈ acc,
          g.2 = processed.filter (fun p => hashF p = some g.1) ∧ g.2 ≠ []) ∧
        (∀ p ∈ processed, ∀ h, hashF p = some h → ∃ g ∈ acc, g.1 = h)) →
      (((files.foldl (detectStep hashF) acc).map Prod.fst).Nodup ∧
        (∀ g ∈ files.foldl (detectStep hashF) acc,
          g.2 = (processed ++ files).filter (fun p => hashF p = some g.1) ∧
            g.2 ≠ []) ∧
        (∀ p ∈ processed ++ files, ∀ h, hashF p = some h →
          ∃ g ∈ files.foldl (detectStep hashF) acc, g.1 = h)) := by
  intro files
  induction files with
  | nil =>
    intro acc processed hinv
    simpa using hinv
  | cons f fs ih =>
    intro acc processed hinv
    obtain ⟨hnd, hgr, hcov⟩ := hinv
    rw [List.foldl_cons,
      show processed ++ f :: fs = (processed ++ [f]) ++ fs by simp]
    rcases hf : hashF f with _ | h
    · -- hash failure: file skipped
      rw [detectStep_none hashF acc f hf]
      refine ih acc (processed ++ [f]) ⟨hnd, ?_, ?_⟩
      · intro g hg
        obtain ⟨he, hne⟩ := hgr g hg
        refine ⟨?_, hne⟩
        rw [List.filter_append, ← he]
        simp [hf]
      · intro p hp hh hph
        rcases List.mem_append.mp hp with hp | hp
        · exact hcov p hp hh hph
        · simp only [List.mem_singleton] at hp
          subst hp
          rw [hf] at hph
          exact absurd hph (by simp)
    · rw [detectStep_some hashF acc f h hf]
      by_cases hkey : (acc.any fun g => g.1 == h) = true
      · -- existing key: append f to its group
        rw [addToGroup_pos acc h f hkey]
        refine ih _ (processed ++ [f]) ⟨?_, ?_, ?_⟩
        · rw [List.map_map]
          have hcomp : (Prod.fst ∘ fun g : String × List String =>
              if g.1 = h then (g.1, g.2 ++ [f]) else g) = Prod.fst := by
            funext g
            by_cases hgh : g.1 = h <;> simp [hgh]
          rw [hcomp]
          exact hnd
        · intro g hg
          rw [List.mem_map] at hg
          obtain ⟨g0, hg0, hg0e⟩ := hg
          obtain ⟨he, hne⟩ := hgr g0 hg0
          by_cases hgh : g0.1 = h
          · rw [← hg0e]
            simp only [if_pos hgh]
            constructor
            · rw [List.filter_append, ← he]
              simp [hf, hgh]
            · simp
          · rw [← hg0e]
            simp only [if_neg hgh]
            refine ⟨?_, hne⟩
            rw [List.filter_append, ← he]
            have hne2 : hashF f ≠ some g0.1 := by
              rw [hf]; intro hx; exact hgh (Option.some.inj hx).symm
            simp [hne2]
        · intro p hp hh hph
          rcases List.mem_append.mp hp with hp | hp
          · obtain ⟨g0, hg0, hg0h⟩ := hcov p hp hh hph
            refine ⟨_, List.mem_map_of_mem _ hg0, ?_⟩
            by_cases hgh : g0.1 = h
            · simp only [if_pos hgh]; exact hg0h
            · simp only [if_neg hgh]; exact hg0h
          · simp only [List.mem_singleton] at hp
            subst hp
            rw [hf] at hph
            have hhh : h = hh := Option.some.inj hph
            obtain ⟨g0, hg0, hg0h⟩ := (addToGroup_any_iff acc h).mp hkey
            refine ⟨_, List.mem_map_of_mem _ hg0, ?_⟩
            simp only [if_pos hg0h]
            exact hg0h.trans hhh
      · -- new key appended at the end
        rw [addToGroup_neg acc h f hkey]
        have hnotkey : ∀ g ∈ acc, g.1 ≠ h := by
          intro g hg he
          exact hkey ((addToGroup_any_iff acc h).mpr ⟨g, hg, he⟩)
        refine ih _ (processed ++ [f]) ⟨?_, ?_, ?_⟩
        · rw [List.map_append, List.nodup_append]
          refine ⟨hnd, by simp, ?_⟩
          intro k hk hk2
          simp only [List.map_cons, List.map_nil, List.mem_singleton] at hk2
          rw [List.mem_map] at hk
          obtain ⟨g0, hg0, hg0k⟩ := hk
          exact hnotkey g0 hg0 (hg0k.trans hk2)
        · intro g hg
          rcases List.mem_append.mp hg with hg | hg
          · obtain ⟨he, hne⟩ := hgr g hg
            refine ⟨?_, hne⟩
            rw [List.filter_append, ← he]
            have hne2 : hashF f ≠ some g.1 := by
              rw [hf]
              intro hx
              exact hnotkey g hg (Option.some.inj hx).symm
            simp [hne2]
          · simp only [List.mem_singleton] at hg
            subst hg
            constructor
            · rw [List.filter_append]
              have hempty :
                  processed.filter (fun p => hashF p = some h) = [] := by
                rw [List.filter_eq_nil_iff]
                intro p hp hph
                simp only [decide_eq_true_eq] at hph
                obtain ⟨g0, hg0, hg0h⟩ := hcov p hp h hph
                exact hnotkey g0 hg0 hg0h
              simp [hempty, hf]
            · simp
        · intro p hp hh hph
          rcases List.mem_append.mp hp with hp | hp
          · obtain ⟨g0, hg0, hg0h⟩ := hcov p hp hh hph
            exact ⟨g0, List.mem_append_left _ hg0, hg0h⟩
          · simp only [List.mem_singleton] at hp
            subst hp
            rw [hf] at hph
            have hhh : h = hh := Option.some.inj hph
            exact ⟨_, List.mem_append_right _ (List.mem_singleton_self _), hhh⟩

/-- The characterization of `buildHashGroups`. -/
theorem buildHashGroups_spec (hashF : String → Option String)
    (filePaths : List String) :
    ((buildHashGroups hashF filePaths).map Prod.fst).Nodup ∧
    (∀ g ∈ buildHashGroups hashF filePaths,
      g.2 = filePaths.filter (fun p => hashF p = some g.1) ∧ g.2 ≠ []) ∧
    (∀ p ∈ filePaths, ∀ h, hashF p = some h →
      ∃ g ∈ buildHashGroups hashF filePaths, g.1 = h) := by
  have hx := buildGroups_aux hashF filePaths [] [] (by simp)
  simpa [buildHashGroups] using hx


/-- A group of `detect_duplicate_files` is a hash group with 2+ files. -/
theorem mem_detect_iff (hashF : String → Option String)
    (filePaths : List String) (g : String × List String) :
    g ∈ detect_duplicate_files hashF filePaths ↔
      g ∈ buildHashGroups hashF filePaths ∧ 1 < g.2.length := by
  simp [detect_duplicate_files, List.mem_filter]

theorem two_le_length_of_mem_ne {l : List String} {p q : String}
    (hp : p ∈ l) (hq : q ∈ l) (hne : p ≠ q) : 2 ≤ l.length := by
  rcases l with _ | ⟨x, _ | ⟨y, t⟩⟩
  · simp at hp
  · simp only [List.mem_singleton] at hp hq
    exact absurd (hp.trans hq.symm) hne
  · simp only [List.length_cons]
    omega

/-- C7: `detect_duplicate_files` returns only groups of 2 or more
files; two distinct hashable files share a group iff their digests are
equal; a file whose digest is unique in the batch is in no group; and
every file is in at most one group. -/
theorem C7_duplicate_groups (hashF : String → Option String)
    (filePaths : List String) :
    (∀ g ∈ detect_duplicate_files hashF filePaths, 2 ≤ g.2.length) ∧
    (∀ p q h, p ∈ filePaths → q ∈ filePaths → p ≠ q →
      hashF p = some h → hashF q = some h →
      ∃ g ∈ detect_duplicate_files hashF filePaths, p ∈ g.2 ∧ q ∈ g.2) ∧
    (∀ g ∈ detect_duplicate_files hashF filePaths,
      ∀ p ∈ g.2, ∀ q ∈ g.2, hashF p = hashF q) ∧
    (∀ p, (filePaths.filter fun q => hashF q = hashF p).length ≤ 1 →
      ∀ g ∈ detect_duplicate_files hashF filePaths, p ∉ g.2) ∧
    (∀ g₁ ∈ detect_duplicate_files hashF filePaths,
      ∀ g₂ ∈ detect_duplicate_files hashF filePaths,
      ∀ p, p ∈ g₁.2 → p ∈ g₂.2 → g₁ = g₂) := by
  obtain ⟨hnd, hgr, hcov⟩ := buildHashGroups_spec hashF filePaths
  have hmemhash : ∀ g ∈ buildHashGroups hashF filePaths, ∀ p ∈ g.2,
      p ∈ filePaths ∧ hashF p = some g.1 := by
    intro g hg p hp
    rw [(hgr g hg).1, List.mem_filter] at hp
    exact ⟨hp.1, by simpa using hp.2⟩
  refine ⟨?_, ?_, ?_, ?_, ?_⟩
  · intro g hg
    have := ((mem_detect_iff hashF filePaths g).mp hg).2
    omega
  · intro p q h hp hq hne hhp hhq
    obtain ⟨g, hgB, hgkey⟩ := hcov p hp h hhp
    have hpg : p ∈ g.2 := by
      rw [(hgr g hgB).1, List.mem_filter]
      exact ⟨hp, by simp [hhp, hgkey]⟩
    have hqg : q ∈ g.2 := by
      rw [(hgr g hgB).1, List.mem_filter]
      exact ⟨hq, by simp [hhq, hgkey]⟩
    refine ⟨g, ?_, hpg, hqg⟩
    rw [mem_detect_iff]
    exact ⟨hgB, by have := two_le_length_of_mem_ne hpg hqg hne; omega⟩
  · intro g hg p hp q hq
    have hgB := ((mem_detect_iff hashF filePaths g).mp hg).1
    rw [(hmemhash g hgB p hp).2, (hmemhash g hgB q hq).2]
  · intro p hshort g hg hp
    have hgB := ((mem_detect_iff hashF filePaths g).mp hg).1
    have hlen := ((mem_detect_iff hashF filePaths g).mp hg).2
    have hph := (hmemhash g hgB p hp).2
    have hfe : (filePaths.filter fun q => hashF q = hashF p) =
        filePaths.filter fun q => hashF q = some g.1 := by
      apply List.filter_congr
      intro x hx
      rw [hph]
    rw [hfe, ← (hgr g hgB).1] at hshort
    omega
  · intro g₁ hg₁ g₂ hg₂ p hp₁ hp₂
    have hg₁B := ((mem_detect_iff hashF filePaths g₁).mp hg₁).1
    have hg₂B := ((mem_detect_iff hashF filePaths g₂).mp hg₂).1
    have h₁ := (hmemhash g₁ hg₁B p hp₁).2
    have h₂ := (hmemhash g₂ hg₂B p hp₂).2
    have hkeys : g₁.1 = g₂.1 :=
      Option.some.inj ((h₁.symm.trans h₂))
    exact List.inj_on_of_nodup_map hnd hg₁B hg₂B hkeys

theorem C7_duplicate_groups_witness :
    (∀ g ∈ detect_duplicate_files (fun p => some (takeStr p 1))
      ["ax", "ay", "b"], 2 ≤ g.2.length) ∧
    (∃ g ∈ detect_duplicate_files (fun p => some (takeStr p 1))
      ["ax", "ay", "b"], "ax" ∈ g.2 ∧ "ay" ∈ g.2) ∧
    (∀ g ∈ detect_duplicate_files (fun p => some (takeStr p 1))
      ["ax", "ay", "b"], "b" ∉ g.2) ∧
    (∀ g₁ ∈ detect_duplicate_files (fun p => some (takeStr p 1))
      ["ax", "ay", "b"],
      ∀ g₂ ∈ detect_duplicate_files (fun p => some (takeStr p 1))
        ["ax", "ay", "b"],
      ∀ p, p ∈ g₁.2 → p ∈ g₂.2 → g₁ = g₂) :=
  ⟨(C7_duplicate_groups (fun p => some (takeStr p 1)) ["ax", "ay", "b"]).1,
   (C7_duplicate_groups (fun p => some (takeStr p 1))
      ["ax", "ay", "b"]).2.1 "ax" "ay" "a" (by decide) (by decide)
      (by decide) (by decide) (by decide),
   fun g hg =>
     (C7_duplicate_groups (fun p => some (takeStr p 1))
        ["ax", "ay", "b"]).2.2.2.1 "b" (by decide) g hg,
   (C7_duplicate_groups (fun p => some (takeStr p 1))
      ["ax", "ay", "b"]).2.2.2.2⟩


/-- Membership in the `all_duplicate_files` accumulation. -/
theorem mem_allDup_iff (l : List (String × List String)) (p : String) :
    ∀ init : List String,
      (p ∈ l.foldl (fun s g => s ++ g.2) init ↔
        p ∈ init ∨ ∃ g ∈ l, p ∈ g.2) := by
  induction l with
  | nil => intro init; simp
  | cons g t ih =>
    intro init
    rw [List.foldl_cons, ih (init ++ g.2)]
    simp only [List.mem_append, List.mem_cons]
    constructor
    · rintro ((h | h) | ⟨g2, hg2, hp2⟩)
      · exact Or.inl h
      · exact Or.inr ⟨g, Or.inl rfl, h⟩
      · exact Or.inr ⟨g2, Or.inr hg2, hp2⟩
    · rintro (h | ⟨g2, (rfl | hg2), hp2⟩)
      · exact Or.inl (Or.inl h)
      · exact Or.inl (Or.inr hp2)
      · exact Or.inr ⟨g2, hg2, hp2⟩

theorem contains_true_iff (l : List String) (a : String) :
    l.contains a = true ↔ a ∈ l := by
  simp [List.contains]

theorem contains_false_iff (l : List String) (a : String) :
    l.contains a = false ↔ a ∉ l := by
  simp [List.contains]

/-- `get_deduplicated_files` in non-interactive mode, when duplicates
exist. -/
theorem gdf_false_eq (hashF : String → Option String)
    (filePaths : List String) (selections : Nat → String)
    (hne : ¬ (detect_duplicate_files hashF filePaths).isEmpty = true) :
    get_deduplicated_files hashF filePaths false selections =
      (filePaths.filter (fun p =>
        !(((detect_duplicate_files hashF filePaths).foldl
          (fun s g => s ++ g.2) []).contains p)) ++
        (detect_duplicate_files hashF filePaths).map (fun g => g.2.headD ""),
       detect_duplicate_files hashF filePaths) := by
  simp only [get_deduplicated_files, hne, if_false, Bool.false_eq_true]

/-- C8: non-interactive duplicate resolution keeps all files outside
any duplicate group, keeps exactly the first member of each group
(each group lists its members in original batch order, so its head is
the earliest) and drops the other members, and returns only submitted
files; for a 3-file batch whose first two files share content, exactly
2 files remain. -/
theorem C8_non_interactive_resolution (hashF : String → Option String)
    (filePaths : List String) (selections : Nat → String) :
    (∀ p ∈ filePaths,
      (∀ g ∈ (get_deduplicated_files hashF filePaths false selections).2,
        p ∉ g.2) →
      p ∈ (get_deduplicated_files hashF filePaths false selections).1) ∧
    (∀ g ∈ (get_deduplicated_files hashF filePaths false selections).2,
      g.2 = filePaths.filter (fun p => hashF p = some g.1) ∧
      g.2.headD "" ∈
        (get_deduplicated_files hashF filePaths false selections).1 ∧
      (∀ q ∈ g.2, q ≠ g.2.headD "" →
        q ∉ (get_deduplicated_files hashF filePaths false selections).1)) ∧
    (∀ p ∈ (get_deduplicated_files hashF filePaths false selections).1,
      p ∈ filePaths) ∧
    (∀ a b c h h2, filePaths = [a, b, c] →
      hashF a = some h → hashF b = some h → hashF c = some h2 → h ≠ h2 →
      (get_deduplicated_files hashF filePaths false selections).1.length
        = 2) := by
  obtain ⟨hnd, hgr, hcov⟩ := buildHashGroups_spec hashF filePaths
  have hmemhash : ∀ g ∈ buildHashGroups hashF filePaths, ∀ p ∈ g.2,
      p ∈ filePaths ∧ hashF p = some g.1 := by
    intro g hg p hp
    rw [(hgr g hg).1, List.mem_filter] at hp
    exact ⟨hp.1, by simpa using hp.2⟩
  have hscen : ∀ a b c h h2, filePaths = [a, b, c] →
      hashF a = some h → hashF b = some h → hashF c = some h2 → h ≠ h2 →
      (get_deduplicated_files hashF filePaths false selections).1.length
        = 2 := by
    intro a b c h h2 hfp ha hb hc hn
    subst hfp
    have hbeq : (h == h2) = false := beq_eq_false_iff_ne.mpr hn
    have hdet : detect_duplicate_files hashF [a, b, c] = [(h, [a, b])] := by
      simp [detect_duplicate_files, buildHashGroups, detectStep, addToGroup,
        ha, hb, hc, hbeq]
    have hca : c ≠ a := by
      intro he
      rw [he, ha] at hc
      exact hn (Option.some.inj hc)
    have hcb : c ≠ b := by
      intro he
      rw [he, hb] at hc
      exact hn (Option.some.inj hc)
    rw [gdf_false_eq hashF [a, b, c] selections (by rw [hdet]; simp)]
    simp only [hdet]
    simp [List.contains, hca, hcb]
  by_cases hempty : (detect_duplicate_files hashF filePaths).isEmpty = true
  · have hgdf : get_deduplicated_files hashF filePaths false selections =
        (filePaths, []) := by
      simp only [get_deduplicated_files, hempty, if_true]
    refine ⟨?_, ?_, ?_, hscen⟩
    · intro p hp _
      rw [hgdf]
      exact hp
    · intro g hg
      rw [hgdf] at hg
      simp at hg
    · intro p hp
      rw [hgdf] at hp
      exact hp
  · have heq := gdf_false_eq hashF filePaths selections hempty
    refine ⟨?_, ?_, ?_, hscen⟩
    · intro p hp hno
      rw [heq] at hno ⊢
      simp only at hno ⊢
      apply List.mem_append_left
      rw [List.mem_filter]
      refine ⟨hp, ?_⟩
      have hnall : p ∉ (detect_duplicate_files hashF filePaths).foldl
          (fun s g => s ++ g.2) [] := by
        rw [mem_allDup_iff]
        rintro (hx | ⟨g, hg, hpg⟩)
        · simp at hx
        · exact hno g hg hpg
      rw [Bool.not_eq_eq_eq_not, Bool.not_true, contains_false_iff]
      exact hnall
    · intro g hg
      rw [heq] at hg ⊢
      simp only at hg ⊢
      have hgB := ((mem_detect_iff hashF filePaths g).mp hg).1
      have hlen := ((mem_detect_iff hashF filePaths g).mp hg).2
      obtain ⟨x, rest, hx⟩ : ∃ x rest, g.2 = x :: rest := by
        rcases hgx : g.2 with _ | ⟨x, rest⟩
        · rw [hgx] at hlen; simp at hlen
        · exact ⟨x, rest, rfl⟩
      refine ⟨(hgr g hgB).1, ?_, ?_⟩
      · apply List.mem_append_right
        rw [List.mem_map]
        exact ⟨g, hg, rfl⟩
      · intro q hq hqne hqk
        rcases List.mem_append.mp hqk with hqk | hqk
        · rw [List.mem_filter] at hqk
          have := hqk.2
          rw [Bool.not_eq_eq_eq_not, Bool.not_true, contains_false_iff] at this
          apply this
          rw [mem_allDup_iff]
          exact Or.inr ⟨g, hg, hq⟩
        · rw [List.mem_map] at hqk
          obtain ⟨g2, hg2, hg2e⟩ := hqk
          have hg2B := ((mem_detect_iff hashF filePaths g2).mp hg2).1
          have hlen2 := ((mem_detect_iff hashF filePaths g2).mp hg2).2
          obtain ⟨y, rest2, hy⟩ : ∃ y rest2, g2.2 = y :: rest2 := by
            rcases hgy : g2.2 with _ | ⟨y, rest2⟩
            · rw [hgy] at hlen2; simp at hlen2
            · exact ⟨y, rest2, rfl⟩
          have hyq : y = q := by
            rw [hy] at hg2e
            simpa using hg2e
          have hymem : y ∈ g2.2 := by rw [hy]; exact List.mem_cons_self _ _
          have hk1 := (hmemhash g hgB q hq).2
          have hk2 := (hmemhash g2 hg2B y hymem).2
          rw [hyq] at hk2
          have hkeys : g.1 = g2.1 := Option.some.inj (hk1.symm.trans hk2)
          have hgg : g = g2 := List.inj_on_of_nodup_map hnd hgB hg2B hkeys
          apply hqne
          rw [← hgg] at hg2e
          exact hg2e.symm
    · intro p hp
      rw [heq] at hp
      simp only at hp
      rcases List.mem_append.mp hp with hp | hp
      · exact (List.mem_filter.mp hp).1
      · rw [List.mem_map] at hp
        obtain ⟨g, hg, hge⟩ := hp
        have hgB := ((mem_detect_iff hashF filePaths g).mp hg).1
        have hlen := ((mem_detect_iff hashF filePaths g).mp hg).2
        obtain ⟨y, rest2, hy⟩ : ∃ y rest2, g.2 = y :: rest2 := by
          rcases hgy : g.2 with _ | ⟨y, rest2⟩
          · rw [hgy] at hlen; simp at hlen
          · exact ⟨y, rest2, rfl⟩
        have hymem : y ∈ g.2 := by rw [hy]; exact List.mem_cons_self _ _
        have : y = p := by rw [hy] at hge; simpa using hge
        rw [← this]
        exact (hmemhash g hgB y hymem).1

theorem C8_non_interactive_witness :
    (get_deduplicated_files (fun p => some (takeStr p 1)) ["ax", "ay", "b"]
      false (fun _ => "1")).1.length = 2 :=
  (C8_non_interactive_resolution (fun p => some (takeStr p 1))
    ["ax", "ay", "b"] (fun _ => "1")).2.2.2 "ax" "ay" "b" "a" "b"
    rfl (by decide) (by decide) (by decide) (by decide)

end Slimgem
